import Mathlib

/-!
Verification development for the maintainer-d repository.

This file gives a shallow embedding, in Lean, of the parts of the Go code
that the checked properties are about: the `sanitizeName` helper of the
sync job, the FOSSA-user matching and linking logic of the bootstrap job,
the GORM schema uniqueness declarations, the `SQLStore` accessors, the
project sync step, the kdp-workspaces `Reconcile` loop and the onboarding
webhook handler.  Database state is modelled as lists of rows (in primary
key order, so that GORM's `First` is `List.find?`), and external services
(kcp, FOSSA, GitHub) as explicit oracle parameters whose invocations are
recorded as effects.
-/

namespace MaintainerD

/-! ### sanitizeName (cmd sync job)

Embedding of `sanitizeName` and `dns1123InvalidChars` from the sync job:

    var dns1123InvalidChars = regexp.MustCompile(`[^a-z0-9-.]+`)

`sanitizeName` lower-cases and trims the input, replaces every maximal run
of characters outside `[a-z0-9-.]` by a single `-`, trims `-` and `.` from
both ends, truncates to 63 bytes and trims again, falling back to
`"unnamed"` whenever the string becomes empty.  Strings are processed as
`List Char`; after the replacement step every character is ASCII, so Go's
byte-based truncation `s[:63]` coincides with `List.take 63`.
-/

/-- Membership in the character class `[a-z0-9-.]`, the complement of the
`dns1123InvalidChars` regex `[^a-z0-9-.]+`. -/
def isDnsValid (c : Char) : Bool :=
  ('a' ≤ c && c ≤ 'z') || ('0' ≤ c && c ≤ '9') || c == '-' || c == '.'

/-- Characters trimmed by `strings.Trim(s, "-.")`. -/
def isTrimChar (c : Char) : Bool :=
  c == '-' || c == '.'

/-- `strings.TrimSpace`, on character lists (whitespace at both ends). -/
def goTrimSpace (l : List Char) : List Char :=
  ((l.dropWhile Char.isWhitespace).reverse.dropWhile Char.isWhitespace).reverse

/-- Helper for `replaceInvalidRuns`: the flag records whether the previous
character was outside the class, so that a maximal run of invalid
characters contributes a single `'-'`. -/
def replaceInvalidAux : Bool → List Char → List Char
  | _, [] => []
  | prevInvalid, c :: rest =>
    if isDnsValid c then c :: replaceInvalidAux false rest
    else if prevInvalid then replaceInvalidAux true rest
    else '-' :: replaceInvalidAux true rest

/-- `dns1123InvalidChars.ReplaceAllString(s, "-")`: each maximal run of
characters outside `[a-z0-9-.]` becomes a single `'-'`. -/
def replaceInvalidRuns (l : List Char) : List Char :=
  replaceInvalidAux false l

/-- `strings.Trim(s, "-.")` on character lists. -/
def trimDashDot (l : List Char) : List Char :=
  ((l.dropWhile isTrimChar).reverse.dropWhile isTrimChar).reverse

/-- `sanitizeName` from the sync job (`syncProjects` and friends). -/
def sanitizeName (s : String) : String :=
  if s = "" then "unnamed"
  else
    let t := replaceInvalidRuns ((goTrimSpace s.toList).map Char.toLower)
    let t := trimDashDot t
    if t = [] then "unnamed"
    else if t.length > 63 then
      let t2 := trimDashDot (t.take 63)
      if t2 = [] then "unnamed" else String.mk t2
    else String.mk t

/-! Auxiliary facts about the `sanitizeName` pipeline. -/

theorem isDnsValid_of_mem_replaceInvalidAux :
    ∀ (b : Bool) (l : List Char) (c : Char),
      c ∈ replaceInvalidAux b l → isDnsValid c = true := by
  intro b l
  induction l generalizing b with
  | nil => intro c h; simp [replaceInvalidAux] at h
  | cons d rest ih =>
    intro c h
    simp only [replaceInvalidAux] at h
    by_cases hv : isDnsValid d
    · simp only [hv, if_pos] at h
      rcases List.mem_cons.mp h with rfl | h
      · exact hv
      · exact ih false c h
    · simp only [hv, if_neg, Bool.false_eq_true, if_false] at h
      cases b with
      | true => exact ih true c (by simpa using h)
      | false =>
        simp only [Bool.false_eq_true, if_false] at h
        rcases List.mem_cons.mp h with rfl | h
        · decide
        · exact ih true c h

theorem isDnsValid_of_mem_replaceInvalidRuns {l : List Char} {c : Char}
    (h : c ∈ replaceInvalidRuns l) : isDnsValid c = true :=
  isDnsValid_of_mem_replaceInvalidAux false l c h

theorem trimDashDot_sublist (l : List Char) : List.Sublist (trimDashDot l) l := by
  unfold trimDashDot
  have h1 : List.Sublist ((l.dropWhile isTrimChar).reverse.dropWhile isTrimChar)
      (l.dropWhile isTrimChar).reverse := List.dropWhile_sublist _
  have h2 := h1.reverse
  rw [List.reverse_reverse] at h2
  exact h2.trans (List.dropWhile_sublist _)

theorem mem_trimDashDot {l : List Char} {c : Char} (h : c ∈ trimDashDot l) : c ∈ l :=
  (trimDashDot_sublist l).mem h

theorem length_trimDashDot_le (l : List Char) : (trimDashDot l).length ≤ l.length :=
  (trimDashDot_sublist l).length_le

theorem head?_trimDashDot {l : List Char} {c : Char}
    (h : (trimDashDot l).head? = some c) : isTrimChar c = false := by
  unfold trimDashDot at h
  have hsuff : List.IsSuffix ((l.dropWhile isTrimChar).reverse.dropWhile isTrimChar)
      (l.dropWhile isTrimChar).reverse := List.dropWhile_suffix _
  have hpre : List.IsPrefix (((l.dropWhile isTrimChar).reverse.dropWhile isTrimChar).reverse)
      (l.dropWhile isTrimChar) := by
    have := List.reverse_prefix.mpr hsuff
    rwa [List.reverse_reverse] at this
  obtain ⟨t, ht⟩ := hpre
  have hhead : (l.dropWhile isTrimChar).head? = some c := by
    rw [← ht, List.head?_append, h]
    rfl
  have := List.head?_dropWhile_not isTrimChar l
  rw [hhead] at this
  exact this

theorem getLast?_trimDashDot {l : List Char} {c : Char}
    (h : (trimDashDot l).getLast? = some c) : isTrimChar c = false := by
  unfold trimDashDot at h
  rw [List.getLast?_eq_head?_reverse, List.reverse_reverse] at h
  have := List.head?_dropWhile_not isTrimChar (l.dropWhile isTrimChar).reverse
  rw [h] at this
  exact this

theorem toLower_of_isDnsValid {c : Char} (h : isDnsValid c = true) :
    Char.toLower c = c := by
  simp only [isDnsValid, Bool.or_eq_true, Bool.and_eq_true, decide_eq_true_eq,
    beq_iff_eq] at h
  rcases h with ((⟨h1, h2⟩ | ⟨h1, h2⟩) | h) | h
  · have h1n : 97 ≤ c.toNat := by
      have hb := BitVec.le_def.mp (UInt32.le_def.mp (Char.le_def.mp h1))
      have e : (Char.val 'a').toBitVec.toNat = 97 := by decide
      rw [e] at hb
      exact hb
    simp only [Char.toLower]
    have hno : ¬(c.toNat ≥ 65 ∧ c.toNat ≤ 90) := by omega
    simp [hno]
  · have h2n : c.toNat ≤ 57 := by
      have hb := BitVec.le_def.mp (UInt32.le_def.mp (Char.le_def.mp h2))
      have e : (Char.val '9').toBitVec.toNat = 57 := by decide
      rw [e] at hb
      exact hb
    simp only [Char.toLower]
    have hno : ¬(c.toNat ≥ 65 ∧ c.toNat ≤ 90) := by omega
    simp [hno]
  · subst h; decide
  · subst h; decide

theorem toList_mk (l : List Char) : (String.mk l).toList = l := rfl

theorem mk_ne_empty {l : List Char} (h : l ≠ []) : String.mk l ≠ "" := by
  intro hcontra
  exact h (congrArg String.data hcontra)

/-- Claim C9: for every input, `sanitizeName` returns a non-empty string of at
most 63 characters, all in `[a-z0-9.-]` (hence lowercase), neither starting
nor ending with `-` or `.`; empty inputs and inputs that strip to nothing
map to `"unnamed"`. -/
theorem C9_sanitizeName_shape (s : String) :
    sanitizeName s ≠ "" ∧
    (sanitizeName s).toList.length ≤ 63 ∧
    (∀ c ∈ (sanitizeName s).toList, isDnsValid c = true) ∧
    (∀ c ∈ (sanitizeName s).toList, Char.toLower c = c) ∧
    (∀ c, (sanitizeName s).toList.head? = some c → isTrimChar c = false) ∧
    (∀ c, (sanitizeName s).toList.getLast? = some c → isTrimChar c = false) ∧
    (s = "" → sanitizeName s = "unnamed") ∧
    (trimDashDot (replaceInvalidRuns ((goTrimSpace s.toList).map Char.toLower)) = [] →
      sanitizeName s = "unnamed") := by
  classical
  by_cases hs : s = ""
  · subst hs
    refine ⟨by decide, by decide, by decide, by decide, by decide, by decide,
      fun _ => rfl, fun _ => rfl⟩
  · set T := trimDashDot (replaceInvalidRuns ((goTrimSpace s.toList).map Char.toLower)) with hT
    have hunfold : sanitizeName s =
        (if T = [] then "unnamed"
         else if T.length > 63 then
           (if trimDashDot (T.take 63) = [] then "unnamed"
            else String.mk (trimDashDot (T.take 63)))
         else String.mk T) := by
      simp only [sanitizeName, hs, if_neg, ← hT]
      rfl
    by_cases hTe : T = []
    · rw [hunfold, if_pos hTe]
      refine ⟨by decide, by decide, by decide, by decide, by decide, by decide,
        fun h => absurd h hs, fun _ => rfl⟩
    · rw [hunfold, if_neg hTe]
      have hmemT : ∀ c ∈ T, isDnsValid c = true := by
        intro c hc
        exact isDnsValid_of_mem_replaceInvalidRuns (mem_trimDashDot (hT ▸ hc))
      by_cases hlen : T.length > 63
      · rw [if_pos hlen]
        set T2 := trimDashDot (T.take 63) with hT2
        have hmemT2 : ∀ c ∈ T2, isDnsValid c = true := by
          intro c hc
          exact hmemT c ((List.take_sublist 63 T).mem (mem_trimDashDot (hT2 ▸ hc)))
        by_cases hT2e : T2 = []
        · rw [if_pos hT2e]
          refine ⟨by decide, by decide, by decide, by decide, by decide, by decide,
            fun h => absurd h hs, fun h => absurd h hTe⟩
        · rw [if_neg hT2e]
          refine ⟨mk_ne_empty hT2e, ?_, ?_, ?_, ?_, ?_, fun h => absurd h hs,
            fun h => absurd h hTe⟩
          · rw [toList_mk]
            calc T2.length ≤ (T.take 63).length := length_trimDashDot_le _
              _ ≤ 63 := by simp
          · rw [toList_mk]; exact hmemT2
          · rw [toList_mk]
            exact fun c hc => toLower_of_isDnsValid (hmemT2 c hc)
          · rw [toList_mk]
            exact fun c hc => head?_trimDashDot (hT2 ▸ hc)
          · rw [toList_mk]
            exact fun c hc => getLast?_trimDashDot (hT2 ▸ hc)
      · rw [if_neg hlen]
        refine ⟨mk_ne_empty hTe, ?_, ?_, ?_, ?_, ?_, fun h => absurd h hs,
          fun h => absurd h hTe⟩
        · rw [toList_mk]; omega
        · rw [toList_mk]; exact hmemT
        · rw [toList_mk]
          exact fun c hc => toLower_of_isDnsValid (hmemT c hc)
        · rw [toList_mk]
          exact fun c hc => head?_trimDashDot (hT ▸ hc)
        · rw [toList_mk]
          exact fun c hc => getLast?_trimDashDot (hT ▸ hc)

/-- Concrete-input companion to C9: the theorem applied at `" My Project!  "`,
every hypothesis discharged by evaluation. -/
theorem C9_sanitizeName_shape_witness :
    sanitizeName "  My Project!  " ≠ "" ∧ sanitizeName "" = "unnamed" := by
  refine ⟨(C9_sanitizeName_shape "  My Project!  ").1, ?_⟩
  exact (C9_sanitizeName_shape "").2.2.2.2.2.2.1 rfl

/-! ### Database row models

Rows of the GORM model types, restricted to the fields the verified code
paths read or write.  Tables are lists of rows in primary-key order, so
GORM's `First` (which orders by primary key) is `List.find?`.  The
embedding models an error-free SQLite backend: query errors other than
`gorm.ErrRecordNotFound` are not represented.
-/

/-- `model.Maintainer` (fields used by matching and sync). -/
structure MaintainerRow where
  id : Nat
  name : String
  email : String
  gitHubAccount : String
  gitHubEmail : String
deriving DecidableEq, Repr

/-- `model.Project` (fields used by the store and the sync job); the
`maintainers` field is the many-to-many association as materialised by
`Preload("Maintainers")`. -/
structure ProjectRow where
  id : Nat
  name : String
  parentProjectID : Option Nat
  maturity : String
  maintainerRef : String
  onboardingIssue : Option String
  mailingList : Option String
  maintainers : List MaintainerRow
deriving DecidableEq, Repr

/-! ### MapFossaUserToMaintainer (cmd/bootstrap and db package) -/

/-- `strings.ToLower`, modelled per character over the string's data. -/
def lowerString (s : String) : String :=
  String.mk (s.data.map Char.toLower)

/-- The condition `LOWER(git_hub_account) = strings.ToLower(github)`. -/
def ghAccountMatches (github : String) (m : MaintainerRow) : Bool :=
  lowerString m.gitHubAccount == lowerString github

/-- The condition `LOWER(email) = ? OR LOWER(git_hub_email) = ?` with both
placeholders bound to `strings.ToLower(email)`. -/
def emailMatches (email : String) (m : MaintainerRow) : Bool :=
  lowerString m.email == lowerString email || lowerString m.gitHubEmail == lowerString email

/-- `MapFossaUserToMaintainer`: when the GitHub handle is non-empty, first
look it up case-insensitively against `git_hub_account`; otherwise (or on
record-not-found) fall through to the case-insensitive email lookup
against `email` and `git_hub_email`. -/
def MapFossaUserToMaintainer (maintainers : List MaintainerRow)
    (email github : String) : Option MaintainerRow :=
  if github ≠ "" then
    match maintainers.find? (ghAccountMatches github) with
    | some m => some m
    | none => maintainers.find? (emailMatches email)
  else
    maintainers.find? (emailMatches email)

/-- Claim C2: `MapFossaUserToMaintainer` returns the first GitHub-handle
match when the handle is non-empty and one exists, otherwise the first
email / GitHub-email match, and `none` exactly when neither lookup
matches. -/
theorem C2_mapFossaUserToMaintainer_spec (ms : List MaintainerRow)
    (email github : String) :
    (github ≠ "" → (∃ m ∈ ms, ghAccountMatches github m) →
      MapFossaUserToMaintainer ms email github = ms.find? (ghAccountMatches github)) ∧
    ((github = "" ∨ ∀ m ∈ ms, ¬ ghAccountMatches github m) →
      MapFossaUserToMaintainer ms email github = ms.find? (emailMatches email)) ∧
    (MapFossaUserToMaintainer ms email github = none ↔
      (¬(github ≠ "" ∧ ∃ m ∈ ms, ghAccountMatches github m) ∧
        ∀ m ∈ ms, ¬ emailMatches email m)) := by
  classical
  by_cases hg : github = ""
  · subst hg
    have hdef : MapFossaUserToMaintainer ms email "" = ms.find? (emailMatches email) := by
      simp [MapFossaUserToMaintainer]
    refine ⟨fun h => absurd rfl h, fun _ => hdef, ?_⟩
    rw [hdef, List.find?_eq_none]
    constructor
    · intro h
      refine ⟨fun hc => hc.1 rfl, ?_⟩
      intro m hm
      simpa using h m hm
    · intro h m hm
      simpa using h.2 m hm
  · cases hfind : ms.find? (ghAccountMatches github) with
    | some m =>
      have hm := List.mem_of_find?_eq_some hfind
      have hp := List.find?_some hfind
      have hdef : MapFossaUserToMaintainer ms email github = some m := by
        simp [MapFossaUserToMaintainer, hg, hfind]
      refine ⟨fun _ _ => by rw [hdef] , ?_, ?_⟩
      · intro h
        rcases h with h | h
        · exact absurd h hg
        · exact absurd hp (by simpa using h m hm)
      · rw [hdef]
        constructor
        · intro h; exact absurd h (by simp)
        · intro h
          exact (h.1 ⟨hg, ⟨m, hm, hp⟩⟩).elim
    | none =>
      have hnone : ∀ m ∈ ms, ¬ ghAccountMatches github m := by
        intro m hm
        simpa using List.find?_eq_none.mp hfind m hm
      have hdef : MapFossaUserToMaintainer ms email github = ms.find? (emailMatches email) := by
        simp [MapFossaUserToMaintainer, hg, hfind]
      refine ⟨?_, fun _ => hdef, ?_⟩
      · intro _ h
        obtain ⟨m, hm, hp⟩ := h
        exact absurd hp (by simpa using hnone m hm)
      · rw [hdef, List.find?_eq_none]
        constructor
        · intro h
          refine ⟨?_, ?_⟩
          · intro hc
            obtain ⟨_, m, hm, hp⟩ := hc
            exact hnone m hm hp
          · intro m hm
            simpa using h m hm
        · intro h m hm
          simpa using h.2 m hm

/-- Concrete-input companion to C2: one maintainer, matched by GitHub
handle case-insensitively. -/
theorem C2_mapFossaUserToMaintainer_spec_witness :
    MapFossaUserToMaintainer
      [⟨1, "Alice", "alice@example.com", "alice", "alice@users.dev"⟩]
      "nobody@example.com" "ALICE" =
    some ⟨1, "Alice", "alice@example.com", "alice", "alice@users.dev"⟩ := by
  have h := (C2_mapFossaUserToMaintainer_spec
      [⟨1, "Alice", "alice@example.com", "alice", "alice@users.dev"⟩]
      "nobody@example.com" "ALICE").1 (by decide)
      ⟨⟨1, "Alice", "alice@example.com", "alice", "alice@users.dev"⟩,
        by simp, by decide⟩
  rw [h]
  decide

/-! ### SQLStore.GetMaintainersByProject (db/store_impl.go) -/

/-- `db.ErrProjectNotFound` and friends. -/
inductive StoreErr
  | projectNotFound
deriving DecidableEq, Repr

/-- `GetMaintainersByProject`: `First(&project, projectID)` with
`Preload("Maintainers.Company")`, mapping `gorm.ErrRecordNotFound` to
`ErrProjectNotFound` and otherwise returning the association. -/
def GetMaintainersByProject (projects : List ProjectRow) (projectID : Nat) :
    Except StoreErr (List MaintainerRow) :=
  match projects.find? (fun p => p.id == projectID) with
  | none => .error .projectNotFound
  | some p => .ok p.maintainers

/-- Claim C10: `GetMaintainersByProject` returns `ErrProjectNotFound`
exactly when no project row has the given ID, and otherwise returns the
project's associated maintainers with no error. -/
theorem C10_getMaintainersByProject_spec (projects : List ProjectRow)
    (projectID : Nat) :
    (GetMaintainersByProject projects projectID = .error .projectNotFound ↔
      ∀ p ∈ projects, p.id ≠ projectID) ∧
    ((∃ p ∈ projects, p.id = projectID) →
      ∃ p ∈ projects, p.id = projectID ∧
        GetMaintainersByProject projects projectID = .ok p.maintainers) := by
  cases hfind : projects.find? (fun p => p.id == projectID) with
  | none =>
    have hnone := List.find?_eq_none.mp hfind
    constructor
    · constructor
      · intro _ p hp
        simpa using hnone p hp
      · intro _
        simp [GetMaintainersByProject, hfind]
    · intro ⟨p, hp, hid⟩
      exact absurd (by simpa using hid) (hnone p hp)
  | some p =>
    have hm := List.mem_of_find?_eq_some hfind
    have hp : p.id = projectID := by simpa using List.find?_some hfind
    constructor
    · constructor
      · intro h
        simp [GetMaintainersByProject, hfind] at h
      · intro h
        exact absurd hp (h p hm)
    · intro _
      exact ⟨p, hm, hp, by simp [GetMaintainersByProject, hfind]⟩

/-- Concrete-input companion to C10: a present and an absent project ID. -/
theorem C10_getMaintainersByProject_spec_witness :
    GetMaintainersByProject [⟨7, "kubernetes", none, "Graduated", "", none, none, []⟩] 9 =
      .error .projectNotFound := by
  exact (C10_getMaintainersByProject_spec
      [⟨7, "kubernetes", none, "Graduated", "", none, none, []⟩] 9).1.mpr (by decide)

/-! ### LinkServiceUserToTeam (cmd/bootstrap and db package)

The linking state is the `service_user_teams` table: a list of rows plus
the next auto-increment primary key.  GORM's
`Where("service_id = ? AND service_team_id = ? AND service_user_id = ?",
su.ServiceID, st.ID, su.ServiceUserID).FirstOrCreate(&row)` looks the row
up under those conditions and, when nothing matches, inserts the struct
as-is: string conditions are never copied into the created record, so the
created row keeps the zero `ServiceTeamID` of the
`model.ServiceUserTeams{ServiceID: 1, ServiceUserID: ...}` literal.
`FirstOrCreate` cannot return `gorm.ErrRecordNotFound` (it creates
instead), so the `errors.Is(err, gorm.ErrRecordNotFound)` branch and the
trailing `db.Create(&newLink)` block of the source are unreachable under
error-free database semantics and do not appear in the embedding.
-/

/-- `model.ServiceUser` (fields used by linking). -/
structure ServiceUserRow where
  id : Nat
  serviceId : Nat
  serviceUserId : Int
  serviceEmail : String
deriving DecidableEq, Repr

/-- `model.ServiceTeam` (fields used by linking); `id` is the GORM primary
key, `serviceTeamId` the remote FOSSA team id. -/
structure ServiceTeamRow where
  id : Nat
  projectId : Nat
  serviceId : Nat
  serviceTeamId : Int
  serviceTeamName : Option String
deriving DecidableEq, Repr

/-- `model.ServiceUserTeams`. -/
structure ServiceUserTeamsRow where
  id : Nat
  serviceId : Nat
  serviceUserId : Int
  serviceTeamId : Nat
  maintainerId : Option Nat
  collaboratorId : Option Nat
deriving DecidableEq, Repr

/-- The `service_user_teams` table with its auto-increment counter. -/
structure ServiceUserTeamsTable where
  rows : List ServiceUserTeamsRow
  nextId : Nat
deriving DecidableEq, Repr

/-- `Where("service_id = ? AND service_team_id = ? AND service_user_id = ?",
...).FirstOrCreate(&attrs)`: find the first row matching the string
conditions, else insert `attrs` unchanged (apart from the assigned primary
key) — GORM does not propagate raw-SQL conditions into the created row. -/
def firstOrCreateLink (t : ServiceUserTeamsTable) (serviceId : Nat)
    (serviceTeamId : Nat) (serviceUserId : Int) (attrs : ServiceUserTeamsRow) :
    ServiceUserTeamsRow × ServiceUserTeamsTable :=
  match t.rows.find? (fun r =>
      r.serviceId == serviceId && r.serviceTeamId == serviceTeamId &&
        r.serviceUserId == serviceUserId) with
  | some r => (r, t)
  | none =>
    let r := { attrs with id := t.nextId }
    (r, { rows := t.rows ++ [r], nextId := t.nextId + 1 })

/-- `db.Save(&row)`: update the row with the same primary key. -/
def saveLink (t : ServiceUserTeamsTable) (row : ServiceUserTeamsRow) :
    ServiceUserTeamsTable :=
  { t with rows := t.rows.map (fun q => if q.id == row.id then row else q) }

/-- `LinkServiceUserToTeam`; the second component is `true` iff the Go
function returns a non-nil error (here: one of the three guard errors). -/
def LinkServiceUserToTeam (t : ServiceUserTeamsTable)
    (su : Option ServiceUserRow) (sTeams : List (Option ServiceTeamRow))
    (maintainerId collaboratorId : Option Nat) :
    ServiceUserTeamsTable × Bool :=
  match su with
  | none => (t, true)
  | some su =>
    if sTeams.length == 0 then (t, true)
    else if maintainerId.isSome && collaboratorId.isSome then (t, true)
    else
      (sTeams.foldl (fun acc ost =>
        match ost with
        | none => acc
        | some st =>
          let init : ServiceUserTeamsRow :=
            { id := 0, serviceId := 1, serviceUserId := su.serviceUserId,
              serviceTeamId := 0, maintainerId := none, collaboratorId := none }
          let fc := firstOrCreateLink acc su.serviceId st.id su.serviceUserId init
          let step1 :=
            if maintainerId.isSome && fc.1.maintainerId.isNone then
              ({ fc.1 with maintainerId := maintainerId, collaboratorId := none }, true)
            else (fc.1, false)
          let step2 :=
            if collaboratorId.isSome && step1.1.collaboratorId.isNone then
              ({ step1.1 with collaboratorId := collaboratorId, maintainerId := none }, true)
            else step1
          if step2.2 then saveLink fc.2 step2.1 else fc.2) t, false)

/-- Claim C3 fails on the code: running `LinkServiceUserToTeam` twice with
the same arguments inserts a second `service_user_teams` row.  The lookup
matches on `st.ID`, but the row created by `FirstOrCreate` keeps
`ServiceTeamID = 0` (raw-SQL conditions are not written back), so the
second run never finds the first run's row and creates a duplicate. -/
theorem C3_linkServiceUserToTeam_not_idempotent :
    (LinkServiceUserToTeam
        (LinkServiceUserToTeam ⟨[], 1⟩ (some ⟨1, 1, 42, "user@example.com"⟩)
          [some ⟨1, 1, 1, 100, some "kubernetes"⟩] none none).1
        (some ⟨1, 1, 42, "user@example.com"⟩)
        [some ⟨1, 1, 1, 100, some "kubernetes"⟩] none none).1.rows.length = 2 ∧
    (LinkServiceUserToTeam ⟨[], 1⟩ (some ⟨1, 1, 42, "user@example.com"⟩)
        [some ⟨1, 1, 1, 100, some "kubernetes"⟩] none none).1.rows.length = 1 := by
  decide

/-! ### Schema uniqueness declarations (model/main.go)

The GORM struct tags of the two `Name` columns are embedded verbatim:

    Project: Name string `gorm:"uniqueIndex,not null;check:name <> ''"`
    Company: Name string `gorm:"uniqueIndex"`

GORM parses a tag by splitting on `;`; each setting's key is the
upper-cased, space-trimmed text before the first `:`, and only the exact
keys `UNIQUEINDEX` / `UNIQUE` yield a unique index or unique column in
`AutoMigrate`.  The Project tag's first setting therefore has the
unrecognised key `UNIQUEINDEX,NOT NULL` and produces no constraint. -/

/-- The `gorm:"..."` tag of `model.Project.Name`. -/
def projectNameGormTag : String := "uniqueIndex,not null;check:name <> ''"

/-- The `gorm:"..."` tag of `model.Company.Name`. -/
def companyNameGormTag : String := "uniqueIndex"

/-- Whether a GORM tag declares uniqueness for its column, following
`schema.ParseTagSetting` / `parseFieldIndexes`. -/
def gormTagDeclaresUnique (tag : String) : Bool :=
  (tag.data.splitOn ';').any (fun setting =>
    let key := goTrimSpace ((setting.takeWhile (fun c => c ≠ ':')).map Char.toUpper)
    key == "UNIQUEINDEX".data || key == "UNIQUE".data)

/-- `model.Company` row. -/
structure CompanyRow where
  id : Nat
  name : String
deriving DecidableEq, Repr

/-- Inserting a Project row into the table produced by `AutoMigrate`:
SQLite rejects the insert iff the schema declares `name` unique and a row
with the same name exists. -/
def createProject (tbl : List ProjectRow) (row : ProjectRow) :
    Except String (List ProjectRow) :=
  if gormTagDeclaresUnique projectNameGormTag && tbl.any (fun r => r.name == row.name) then
    .error "UNIQUE constraint failed: projects.name"
  else .ok (tbl ++ [row])

/-- Inserting a Company row into the table produced by `AutoMigrate`. -/
def createCompany (tbl : List CompanyRow) (row : CompanyRow) :
    Except String (List CompanyRow) :=
  if gormTagDeclaresUnique companyNameGormTag && tbl.any (fun r => r.name == row.name) then
    .error "UNIQUE constraint failed: companies.name"
  else .ok (tbl ++ [row])

/-- Claim C6 as stated is false for projects: a second Project row with a
duplicate `Name` is accepted, because the tag `uniqueIndex,not null` is a
single unrecognised GORM setting and `AutoMigrate` creates no unique index
on `projects.name`. -/
theorem C6_duplicate_project_name_accepted :
    createProject [⟨1, "kubernetes", none, "Graduated", "", none, none, []⟩]
        ⟨2, "kubernetes", none, "Graduated", "", none, none, []⟩ =
      .ok [⟨1, "kubernetes", none, "Graduated", "", none, none, []⟩,
        ⟨2, "kubernetes", none, "Graduated", "", none, none, []⟩] := by
  rfl

/-- Claim C6, amended: only Company names are unique.  Inserting a second
Company row with an existing name fails with a uniqueness violation (and,
the table being returned unchanged only inside `.ok`, leaves the stored
rows as they were), while a duplicate Project name is always accepted. -/
theorem C6_company_name_unique (companies : List CompanyRow) (row : CompanyRow)
    (h : ∃ r ∈ companies, r.name = row.name) :
    createCompany companies row = .error "UNIQUE constraint failed: companies.name" ∧
    ∀ (projects : List ProjectRow) (p : ProjectRow),
      createProject projects p = .ok (projects ++ [p]) := by
  constructor
  · have hc : gormTagDeclaresUnique companyNameGormTag = true := by decide
    have hany : companies.any (fun r => r.name == row.name) = true := by
      obtain ⟨r, hr, hname⟩ := h
      exact List.any_eq_true.mpr ⟨r, hr, by simpa using hname⟩
    simp [createCompany, hc, hany]
  · intro projects p
    have hp : gormTagDeclaresUnique projectNameGormTag = false := by decide
    simp [createProject, hp]

/-- Concrete-input companion to the amended C6. -/
theorem C6_company_name_unique_witness :
    createCompany [⟨1, "Google"⟩] ⟨2, "Google"⟩ =
      .error "UNIQUE constraint failed: companies.name" :=
  (C6_company_name_unique [⟨1, "Google"⟩] ⟨2, "Google"⟩
    ⟨⟨1, "Google"⟩, by decide, rfl⟩).1

/-! ### syncProjects (cmd sync job)

The Kubernetes side is modelled as an association list from object name to
`ProjectSpec`.  `apis.ProjectSpec` is embedded with the fields that
`syncProjects` writes and `projectSpecEqual` reads; the remaining spec
fields (`FoundationRef`, `CollaboratorRefs`, `ServiceRefs`, `Tags`) are
never set nor compared by the sync job.  `apis.ResourceReference` likewise
keeps only its `Name` (the sync job never sets `Workspace` or `UID`).
-/

/-- `apis.ResourceReference` as used by the sync job. -/
structure ResourceReference where
  name : String
deriving DecidableEq, Repr

/-- `apis.ProjectSpec`, restricted to the fields the sync job touches. -/
structure ProjectSpec where
  displayName : String
  maturity : String
  parentProjectRef : Option ResourceReference
  maintainerLeadRef : Option ResourceReference
  onboardingIssue : String
  mailingList : String
  maintainerRefs : List ResourceReference
deriving DecidableEq, Repr

/-- `parentNameByID`: the map from project ID to project name built over
all rows at the start of `syncProjects`. -/
def lookupParentName (rows : List ProjectRow) (pid : Nat) : Option String :=
  (rows.find? (fun q => q.id == pid)).map (fun q => q.name)

/-- The `apis.ProjectSpec` value `syncProjects` computes for one row. -/
def computeProjectSpec (parentNameByID : Nat → Option String) (p : ProjectRow) :
    ProjectSpec :=
  { displayName := p.name
    maturity := p.maturity
    maintainerRefs := p.maintainers.map (fun m => ⟨sanitizeName m.email⟩)
    onboardingIssue := p.onboardingIssue.getD ""
    mailingList := p.mailingList.getD ""
    maintainerLeadRef :=
      if p.maintainerRef ≠ "" then some ⟨sanitizeName p.maintainerRef⟩ else none
    parentProjectRef :=
      match p.parentProjectID with
      | some pid => (parentNameByID pid).map (fun n => ⟨sanitizeName n⟩)
      | none => none }

/-- `projectSpecEqual` from the sync job: field equality on the scalar
fields, nil-ness plus name equality on the two optional references, and
length-plus-name-set comparison on `MaintainerRefs`. -/
def projectSpecEqual (a b : ProjectSpec) : Bool :=
  if a.displayName != b.displayName || a.maturity != b.maturity ||
      a.mailingList != b.mailingList || a.onboardingIssue != b.onboardingIssue then
    false
  else if a.parentProjectRef.isNone != b.parentProjectRef.isNone then false
  else if (match a.parentProjectRef, b.parentProjectRef with
           | some ra, some rb => ra.name != rb.name
           | _, _ => false) then false
  else if a.maintainerLeadRef.isNone != b.maintainerLeadRef.isNone then false
  else if (match a.maintainerLeadRef, b.maintainerLeadRef with
           | some ra, some rb => ra.name != rb.name
           | _, _ => false) then false
  else if a.maintainerRefs.length != b.maintainerRefs.length then false
  else b.maintainerRefs.all (fun r => a.maintainerRefs.any (fun ra => ra.name == r.name))

/-- The mirrored Custom Resources, keyed by object name. -/
abbrev CRState := List (String × ProjectSpec)

/-- One iteration of the `syncProjects` loop for a row: `Get` the CR by
sanitized name, `Create` it when absent, and `Update` its spec exactly
when `projectSpecEqual` reports a difference. -/
def syncProjectStep (parentNameByID : Nat → Option String) (crs : CRState)
    (p : ProjectRow) : CRState :=
  let name := sanitizeName p.name
  let spec := computeProjectSpec parentNameByID p
  match crs.find? (fun kv => kv.1 == name) with
  | none => crs ++ [(name, spec)]
  | some kv =>
    if projectSpecEqual kv.2 spec then crs
    else crs.map (fun q => if q.1 == name then (name, spec) else q)

/-- `syncProjects`: fold the per-row step over all rows, with the
`parentNameByID` map built from the same rows. -/
def syncProjects (rows : List ProjectRow) (crs : CRState) : CRState :=
  rows.foldl (syncProjectStep (lookupParentName rows)) crs

/-- Claim C4: the spec computed for a row mirrors the row 1:1 (display
name, maturity, mailing list and onboarding issue when present, one
maintainer reference named by the sanitized maintainer email per
associated maintainer, and a parent reference exactly when
`ParentProjectID` resolves to a known project), the CR is created with
this spec when absent, and its spec is overwritten exactly when
`projectSpecEqual` reports a difference. -/
theorem C4_syncProjects_mirrors_rows (rows : List ProjectRow) (p : ProjectRow)
    (crs : CRState) :
    (computeProjectSpec (lookupParentName rows) p).displayName = p.name ∧
    (computeProjectSpec (lookupParentName rows) p).maturity = p.maturity ∧
    (∀ v, p.mailingList = some v →
      (computeProjectSpec (lookupParentName rows) p).mailingList = v) ∧
    (∀ v, p.onboardingIssue = some v →
      (computeProjectSpec (lookupParentName rows) p).onboardingIssue = v) ∧
    (computeProjectSpec (lookupParentName rows) p).maintainerRefs =
      p.maintainers.map (fun m => ⟨sanitizeName m.email⟩) ∧
    ((computeProjectSpec (lookupParentName rows) p).parentProjectRef.isSome ↔
      ∃ pid, p.parentProjectID = some pid ∧ ∃ q ∈ rows, q.id = pid) ∧
    (crs.find? (fun kv => kv.1 == sanitizeName p.name) = none →
      syncProjectStep (lookupParentName rows) crs p =
        crs ++ [(sanitizeName p.name, computeProjectSpec (lookupParentName rows) p)]) ∧
    (∀ kv, crs.find? (fun q => q.1 == sanitizeName p.name) = some kv →
      syncProjectStep (lookupParentName rows) crs p =
        (if projectSpecEqual kv.2 (computeProjectSpec (lookupParentName rows) p) then crs
         else crs.map (fun q =>
           if q.1 == sanitizeName p.name then
             (sanitizeName p.name, computeProjectSpec (lookupParentName rows) p)
           else q))) := by
  refine ⟨rfl, rfl, ?_, ?_, rfl, ?_, ?_, ?_⟩
  · intro v hv
    simp [computeProjectSpec, hv]
  · intro v hv
    simp [computeProjectSpec, hv]
  · cases hpp : p.parentProjectID with
    | none =>
      simp [computeProjectSpec, hpp]
    | some pid =>
      simp only [computeProjectSpec, hpp]
      constructor
      · intro h
        refine ⟨pid, rfl, ?_⟩
        cases hfind : rows.find? (fun q => q.id == pid) with
        | none =>
          rw [lookupParentName, hfind] at h
          simp at h
        | some q =>
          exact ⟨q, List.mem_of_find?_eq_some hfind,
            by simpa using List.find?_some hfind⟩
      · rintro ⟨pid2, hpid2, q, hq, hid⟩
        obtain rfl : pid = pid2 := Option.some.inj hpid2
        have hs : (rows.find? (fun r => r.id == pid)).isSome :=
          List.find?_isSome.mpr ⟨q, hq, by simpa using hid⟩
        cases hfind : rows.find? (fun r => r.id == pid) with
        | none => rw [hfind] at hs; simp at hs
        | some r => simp [lookupParentName, hfind]
  · intro hnone
    simp [syncProjectStep, hnone]
  · intro kv hkv
    simp [syncProjectStep, hkv]

/-- Concrete-input companion to C4: a row with one maintainer and a
resolvable parent, synced into an empty CR set. -/
theorem C4_syncProjects_mirrors_rows_witness :
    syncProjectStep
      (lookupParentName
        [⟨3, "CNCF", none, "Graduated", "", none, none, []⟩,
         ⟨7, "Kubernetes", some 3, "Graduated", "", none, some "k8s@lists", [⟨1, "Alice", "alice@example.com", "alice", "a@gh"⟩]⟩])
      []
      ⟨7, "Kubernetes", some 3, "Graduated", "", none, some "k8s@lists", [⟨1, "Alice", "alice@example.com", "alice", "a@gh"⟩]⟩ =
    [("kubernetes",
      computeProjectSpec
        (lookupParentName
          [⟨3, "CNCF", none, "Graduated", "", none, none, []⟩,
           ⟨7, "Kubernetes", some 3, "Graduated", "", none, some "k8s@lists", [⟨1, "Alice", "alice@example.com", "alice", "a@gh"⟩]⟩])
        ⟨7, "Kubernetes", some 3, "Graduated", "", none, some "k8s@lists", [⟨1, "Alice", "alice@example.com", "alice", "a@gh"⟩]⟩)] := by
  have h := (C4_syncProjects_mirrors_rows
      [⟨3, "CNCF", none, "Graduated", "", none, none, []⟩,
       ⟨7, "Kubernetes", some 3, "Graduated", "", none, some "k8s@lists", [⟨1, "Alice", "alice@example.com", "alice", "a@gh"⟩]⟩]
      ⟨7, "Kubernetes", some 3, "Graduated", "", none, some "k8s@lists", [⟨1, "Alice", "alice@example.com", "alice", "a@gh"⟩]⟩
      []).2.2.2.2.2.2.1 rfl
  rw [h]
  rfl

/-! ### ProjectReconciler.Reconcile (kdp-workspaces)

The controller's collaborators — the API server `Get`, kcp configuration
loading, kcp client construction, `GetWorkspace`, `CreateWorkspace` and
`WaitForWorkspaceReady` — are oracles fixed in a `ReconcileEnv`; the
condition updates, status updates and kcp calls the reconciler performs
are recorded as effects.  `GetWorkspace` returns `.ok none` for a
workspace that does not exist (the Go method maps `IsNotFound` to
`nil, nil`).  `updateCondition` / `updateWorkspaceStatus` failures are
only logged by the source except for their own returns, which none of the
checked claims concerns; they are modelled as always succeeding. -/

/-- `kcp.WorkspaceInfo`. -/
structure WorkspaceInfo where
  name : String
  url : String
  phase : String
  ready : Bool
deriving DecidableEq, Repr

/-- Result of the initial `r.Get` on the Project resource. -/
inductive GetProjectResult
  | found
  | notFound
  | err (e : String)
deriving DecidableEq, Repr

/-- The oracle responses a single reconcile observes. -/
structure ReconcileEnv where
  projectName : String
  projectNamespace : String
  getProject : GetProjectResult
  loadConfig : Except String Unit
  newClient : Except String Unit
  getWorkspace : Except String (Option WorkspaceInfo)
  createWorkspace : Except String WorkspaceInfo
  waitForReady : Except String WorkspaceInfo
deriving Repr

/-- One `SetStatusCondition` performed through `updateCondition`;
`status` is `true` for `metav1.ConditionTrue`. -/
structure ConditionRecord where
  condType : String
  status : Bool
  reason : String
deriving DecidableEq, Repr

/-- Side effects of one reconcile. -/
structure ReconcileEffects where
  conditions : List ConditionRecord
  getWorkspaceCalls : List String
  createCalls : List String
  statusUpdates : List WorkspaceInfo
deriving DecidableEq, Repr

/-- The empty effect set. -/
def noReconcileEffects : ReconcileEffects :=
  { conditions := [], getWorkspaceCalls := [], createCalls := [], statusUpdates := [] }

/-- `ctrl.Result` plus the returned error. -/
structure ReconcileResult where
  requeueAfterSeconds : Option Nat
  error : Option String
deriving DecidableEq, Repr

/-- The condition `updateWorkspaceStatus` records for a workspace info. -/
def workspaceStatusCondition (info : WorkspaceInfo) : ConditionRecord :=
  if info.ready then ⟨"WorkspaceReady", true, "WorkspaceReady"⟩
  else ⟨"WorkspaceReady", false, "WorkspaceNotReady"⟩

/-- `ProjectReconciler.Reconcile`, with the workspace name derived as
`strings.ToLower(project.Name)`. -/
def Reconcile (env : ReconcileEnv) : ReconcileResult × ReconcileEffects :=
  match env.getProject with
  | .notFound => (⟨none, none⟩, noReconcileEffects)
  | .err e => (⟨none, some e⟩, noReconcileEffects)
  | .found =>
    match env.loadConfig with
    | .error e =>
      (⟨some 60, some e⟩,
       { noReconcileEffects with
           conditions := [⟨"WorkspaceReady", false, "ConfigurationError"⟩] })
    | .ok _ =>
      match env.newClient with
      | .error e =>
        (⟨some 60, some e⟩,
         { noReconcileEffects with
             conditions := [⟨"WorkspaceReady", false, "KCPConnectionError"⟩] })
      | .ok _ =>
        let workspaceName := lowerString env.projectName
        match env.getWorkspace with
        | .error e =>
          (⟨some 60, some e⟩,
           { noReconcileEffects with
               conditions := [⟨"WorkspaceReady", false, "WorkspaceCheckError"⟩]
               getWorkspaceCalls := [workspaceName] })
        | .ok (some info) =>
          let eff : ReconcileEffects :=
            { conditions := [workspaceStatusCondition info]
              getWorkspaceCalls := [workspaceName]
              createCalls := []
              statusUpdates := [info] }
          if info.ready then (⟨none, none⟩, eff)
          else (⟨some 5, none⟩, eff)
        | .ok none =>
          let creating : ConditionRecord := ⟨"WorkspaceReady", false, "Creating"⟩
          match env.createWorkspace with
          | .error e =>
            (⟨some 30, some e⟩,
             { conditions := [creating, ⟨"WorkspaceReady", false, "CreationFailed"⟩]
               getWorkspaceCalls := [workspaceName]
               createCalls := [workspaceName]
               statusUpdates := [] })
          | .ok createdInfo =>
            match env.waitForReady with
            | .error e =>
              (⟨some 30, some e⟩,
               { conditions := [creating, workspaceStatusCondition createdInfo]
                 getWorkspaceCalls := [workspaceName]
                 createCalls := [workspaceName]
                 statusUpdates := [createdInfo] })
            | .ok readyInfo =>
              (⟨none, none⟩,
               { conditions := [creating, workspaceStatusCondition readyInfo]
                 getWorkspaceCalls := [workspaceName]
                 createCalls := [workspaceName]
                 statusUpdates := [readyInfo] })

/-- Claim C5: every kcp workspace query and every creation uses the
lowercased project name, `CreateWorkspace` is called only when the query
reported the workspace absent (and after that query), and no call is made
when the workspace already exists. -/
theorem C5_reconcile_one_workspace_per_project (env : ReconcileEnv) :
    (∀ w ∈ (Reconcile env).2.getWorkspaceCalls, w = lowerString env.projectName) ∧
    (∀ w ∈ (Reconcile env).2.createCalls, w = lowerString env.projectName) ∧
    ((Reconcile env).2.createCalls ≠ [] →
      env.getWorkspace = .ok none ∧
      (Reconcile env).2.getWorkspaceCalls = [lowerString env.projectName]) ∧
    (∀ info, env.getWorkspace = .ok (some info) →
      (Reconcile env).2.createCalls = []) := by
  rcases env with ⟨name, ns, gp, lc, nc, gw, cw, wr⟩
  cases gp <;> cases lc <;> cases nc <;>
    rcases gw with e | (_ | info) <;> cases cw <;> cases wr <;>
    simp_all [Reconcile, noReconcileEffects] <;> split <;> simp_all

/-- Concrete-input companion to C5: an environment whose workspace query
reports the workspace present, so no create call happens. -/
theorem C5_reconcile_one_workspace_per_project_witness :
    (Reconcile
      ⟨"Kubernetes", "maintainerd", .found, .ok (), .ok (),
        .ok (some ⟨"kubernetes", "https://kcp/ws", "Ready", true⟩),
        .ok ⟨"kubernetes", "https://kcp/ws", "Ready", true⟩,
        .ok ⟨"kubernetes", "https://kcp/ws", "Ready", true⟩⟩).2.createCalls = [] := by
  exact (C5_reconcile_one_workspace_per_project
      ⟨"Kubernetes", "maintainerd", .found, .ok (), .ok (),
        .ok (some ⟨"kubernetes", "https://kcp/ws", "Ready", true⟩),
        .ok ⟨"kubernetes", "https://kcp/ws", "Ready", true⟩,
        .ok ⟨"kubernetes", "https://kcp/ws", "Ready", true⟩⟩).2.2.2
    ⟨"kubernetes", "https://kcp/ws", "Ready", true⟩ rfl

/-- Claim C7: whenever loading the kcp configuration, constructing the kcp
client, checking the workspace, or creating the workspace fails at the
point the reconciler reaches it, `Reconcile` returns that error and a
`WorkspaceReady=False` condition is recorded before returning. -/
theorem C7_reconcile_propagates_failures (env : ReconcileEnv)
    (hfound : env.getProject = .found) :
    (∀ e, env.loadConfig = .error e →
      (Reconcile env).1.error = some e ∧
      ⟨"WorkspaceReady", false, "ConfigurationError"⟩ ∈ (Reconcile env).2.conditions) ∧
    (∀ e, env.loadConfig = .ok () → env.newClient = .error e →
      (Reconcile env).1.error = some e ∧
      ⟨"WorkspaceReady", false, "KCPConnectionError"⟩ ∈ (Reconcile env).2.conditions) ∧
    (∀ e, env.loadConfig = .ok () → env.newClient = .ok () →
      env.getWorkspace = .error e →
      (Reconcile env).1.error = some e ∧
      ⟨"WorkspaceReady", false, "WorkspaceCheckError"⟩ ∈ (Reconcile env).2.conditions) ∧
    (∀ e, env.loadConfig = .ok () → env.newClient = .ok () →
      env.getWorkspace = .ok none → env.createWorkspace = .error e →
      (Reconcile env).1.error = some e ∧
      ⟨"WorkspaceReady", false, "CreationFailed"⟩ ∈ (Reconcile env).2.conditions) := by
  rcases env with ⟨name, ns, gp, lc, nc, gw, cw, wr⟩
  subst hfound
  cases lc <;> cases nc <;> rcases gw with e | (_ | info) <;> cases cw <;>
    simp_all [Reconcile]

/-- Concrete-input companion to C7: a failing `CreateWorkspace`. -/
theorem C7_reconcile_propagates_failures_witness :
    (Reconcile
      ⟨"Kubernetes", "maintainerd", .found, .ok (), .ok (), .ok none,
        .error "kcp unavailable",
        .ok ⟨"kubernetes", "https://kcp/ws", "Ready", true⟩⟩).1.error =
      some "kcp unavailable" := by
  exact ((C7_reconcile_propagates_failures
      ⟨"Kubernetes", "maintainerd", .found, .ok (), .ok (), .ok none,
        .error "kcp unavailable",
        .ok ⟨"kubernetes", "https://kcp/ws", "Ready", true⟩⟩ rfl).2.2.2
    "kcp unavailable" rfl rfl rfl rfl).1

/-! ### EventListener.handleWebhook (onboarding service)

Embedding of the webhook handler: `github.ValidatePayload` (HMAC check
against the configured secret) and `github.ParseWebHook` are represented
by their outcomes on the request; `GetProjectNameFromProjectTitle` (whose
definition is not part of the repository sources, only its call sites) and
`signProjectUpForFOSSA` are oracle parameters.  All FOSSA calls and
database accesses of the handler happen inside `signProjectUpForFOSSA`,
and all GitHub comments are posted through `updateIssue`; both are
recorded in the effects, so empty effects mean no FOSSA call, no database
write and no comment. -/

/-- The labelled-issues event fields the handler reads. -/
structure IssuesEventModel where
  action : String
  title : String
  labels : List String
  repoOwner : String
  repoName : String
  issueNumber : Nat
deriving DecidableEq, Repr

/-- Outcome of `github.ParseWebHook` on a signature-valid payload. -/
inductive ParsedEvent
  | issues (e : IssuesEventModel)
  | other
deriving DecidableEq, Repr

/-- A webhook request, by the outcomes of validation and parsing:
`hmacValid` is whether `github.ValidatePayload` accepts the body against
the configured secret, `parsed` is `none` when `github.ParseWebHook`
fails. -/
structure WebhookRequest where
  hmacValid : Bool
  parsed : Option ParsedEvent
deriving DecidableEq, Repr

/-- A comment posted through `updateIssue` /
`GitHubClient.Issues.CreateComment`. -/
structure PostedComment where
  owner : String
  repo : String
  number : Nat
  body : String
deriving DecidableEq, Repr

/-- Recorded side effects of handling one request: the project names
passed to `signProjectUpForFOSSA` and the comments posted. -/
structure WebhookEffects where
  signUpCalls : List String
  comments : List PostedComment
deriving DecidableEq, Repr

/-- No side effects. -/
def noWebhookEffects : WebhookEffects := { signUpCalls := [], comments := [] }

/-- Header of the onboarding report comment. -/
def onboardingReportHeader : String :=
  "###  🧪 maintainerd - CNCF FOSSA Onboarding Report\n\n" ++
  "#### :spiral_notepad: Actions taken during onboarding...\n\n"

/-- The post-acceptance instructions appended when `signProjectUpForFOSSA`
returned no error. -/
def postAcceptanceInstructions (projectName : String) : String :=
  "---\n\n" ++
  "Once accepted:\n\n" ++
  "- 👤 The CNCF Projects Team *must first* add you to the " ++ projectName ++
  " team as a **Team Admin** ([FOSSA RBAC](https://docs.fossa.com/docs/role-based-access-control#team-roles)).\n\n" ++
  "- 📦 Then, _and only then_, can you start importing your code and documentation repositories into FOSSA: [Getting Started Guide](https://docs.fossa.com/docs/getting-started#importing-a-project).\n\n"

/-- The error line appended when `signProjectUpForFOSSA` returned an
error. -/
def onboardingErrorLine (e : String) : String :=
  "\n❌ Onboarding encountered some problems: `" ++ e ++ "`\n"

/-- The full comment body the handler assembles for one `fossa` label. -/
def fossaOnboardingComment (projectName : String) (actions : List String)
    (err : Option String) : String :=
  onboardingReportHeader ++
  String.join (actions.map (fun a => "- " ++ a ++ "\n")) ++
  (match err with
   | some e => onboardingErrorLine e
   | none => postAcceptanceInstructions projectName)

/-- The body of the label loop: for each label named `fossa`, parse the
issue title (skipping the label on failure), call `signProjectUpForFOSSA`
and post the assembled comment on the event's repository and issue. -/
def fossaLabelStep (parseTitle : String → Option String)
    (signUp : String → List String × Option String) (e : IssuesEventModel)
    (acc : WebhookEffects) (labelName : String) : WebhookEffects :=
  if labelName = "fossa" then
    match parseTitle e.title with
    | none => acc
    | some projectName =>
      let r := signUp projectName
      { signUpCalls := acc.signUpCalls ++ [projectName]
        comments := acc.comments ++
          [⟨e.repoOwner, e.repoName, e.issueNumber,
            fossaOnboardingComment projectName r.1 r.2⟩] }
  else acc

/-- `handleWebhook`: 401 on signature failure, 400 on parse failure, and
otherwise the label loop for `labeled` issues events; every other event
shape falls through to 200 with no effects. -/
def handleWebhook (parseTitle : String → Option String)
    (signUp : String → List String × Option String) (req : WebhookRequest) :
    Nat × WebhookEffects :=
  if !req.hmacValid then (401, noWebhookEffects)
  else
    match req.parsed with
    | none => (400, noWebhookEffects)
    | some .other => (200, noWebhookEffects)
    | some (.issues e) =>
      if e.action ≠ "labeled" then (200, noWebhookEffects)
      else (200, e.labels.foldl (fossaLabelStep parseTitle signUp e) noWebhookEffects)

/-- Claim C1: a request failing HMAC validation is answered 401 with no
FOSSA call, no database write and no comment; a valid-signature request
whose payload does not parse is answered 400, likewise without effects. -/
theorem C1_handleWebhook_auth (parseTitle : String → Option String)
    (signUp : String → List String × Option String) (req : WebhookRequest) :
    (req.hmacValid = false →
      handleWebhook parseTitle signUp req = (401, noWebhookEffects)) ∧
    (req.hmacValid = true → req.parsed = none →
      handleWebhook parseTitle signUp req = (400, noWebhookEffects)) := by
  constructor
  · intro h
    simp [handleWebhook, h]
  · intro h hp
    simp [handleWebhook, h, hp]

/-- Concrete-input companion to C1: a request with a bad signature and a
well-signed unparsable request. -/
theorem C1_handleWebhook_auth_witness :
    handleWebhook (fun _ => none) (fun _ => ([], none)) ⟨false, some .other⟩ =
      (401, noWebhookEffects) ∧
    handleWebhook (fun _ => none) (fun _ => ([], none)) ⟨true, none⟩ =
      (400, noWebhookEffects) :=
  ⟨(C1_handleWebhook_auth (fun _ => none) (fun _ => ([], none))
      ⟨false, some .other⟩).1 rfl,
   (C1_handleWebhook_auth (fun _ => none) (fun _ => ([], none))
      ⟨true, none⟩).2 rfl rfl⟩

theorem foldl_fossaLabelStep_no_fossa (parseTitle : String → Option String)
    (signUp : String → List String × Option String) (e : IssuesEventModel)
    (ls : List String) (acc : WebhookEffects) (h : "fossa" ∉ ls) :
    ls.foldl (fossaLabelStep parseTitle signUp e) acc = acc := by
  induction ls generalizing acc with
  | nil => rfl
  | cons n rest ih =>
    have hn : n ≠ "fossa" := fun hc => h (hc ▸ List.mem_cons_self n rest)
    have hrest : "fossa" ∉ rest := fun hc => h (List.mem_cons_of_mem n hc)
    simp only [List.foldl_cons, fossaLabelStep, if_neg hn]
    exact ih acc hrest

theorem foldl_fossaLabelStep_single (parseTitle : String → Option String)
    (signUp : String → List String × Option String) (e : IssuesEventModel)
    (ls : List String) (acc : WebhookEffects) (projectName : String)
    (hcount : ls.count "fossa" = 1) (hparse : parseTitle e.title = some projectName) :
    ls.foldl (fossaLabelStep parseTitle signUp e) acc =
      { signUpCalls := acc.signUpCalls ++ [projectName]
        comments := acc.comments ++
          [⟨e.repoOwner, e.repoName, e.issueNumber,
            fossaOnboardingComment projectName (signUp projectName).1
              (signUp projectName).2⟩] } := by
  induction ls generalizing acc with
  | nil => simp at hcount
  | cons n rest ih =>
    by_cases hn : n = "fossa"
    · subst hn
      have hrest : "fossa" ∉ rest := by
        have := List.count_cons_self "fossa" rest
        intro hc
        have hpos := List.count_pos_iff.mpr hc
        omega
      simp only [List.foldl_cons, fossaLabelStep, if_pos rfl, hparse]
      exact foldl_fossaLabelStep_no_fossa parseTitle signUp e rest _ hrest
    · have hrest : rest.count "fossa" = 1 := by
        have := List.count_cons "fossa" n rest
        simp only [hn, if_neg] at this
        rw [hcount] at this
        simpa [hn] using this.symm
      simp only [List.foldl_cons, fossaLabelStep, if_neg hn]
      exact ih acc hrest

/-- Claim C8: a `labeled` issues event carrying the label `fossa` (once,
as GitHub labels are unique per issue) whose title parses to a project
name triggers exactly one `signProjectUpForFOSSA` call and exactly one
comment on the event's repository and issue number, whose body is the
onboarding-report header, one Markdown bullet per returned action, and
then the error line when `signProjectUpForFOSSA` errored or the
post-acceptance instructions otherwise; any other action, and any event
without a `fossa` label, produces no comment. -/
theorem C8_handleWebhook_fossa_label (parseTitle : String → Option String)
    (signUp : String → List String × Option String) (e : IssuesEventModel) :
    (∀ projectName, e.action = "labeled" → e.labels.count "fossa" = 1 →
      parseTitle e.title = some projectName →
      handleWebhook parseTitle signUp ⟨true, some (.issues e)⟩ =
        (200,
         { signUpCalls := [projectName]
           comments :=
             [⟨e.repoOwner, e.repoName, e.issueNumber,
               onboardingReportHeader ++
               String.join ((signUp projectName).1.map (fun a => "- " ++ a ++ "\n")) ++
               (match (signUp projectName).2 with
                | some err => onboardingErrorLine err
                | none => postAcceptanceInstructions projectName)⟩] })) ∧
    (e.action ≠ "labeled" →
      handleWebhook parseTitle signUp ⟨true, some (.issues e)⟩ =
        (200, noWebhookEffects)) ∧
    ("fossa" ∉ e.labels →
      handleWebhook parseTitle signUp ⟨true, some (.issues e)⟩ =
        (200, noWebhookEffects)) := by
  refine ⟨?_, ?_, ?_⟩
  · intro projectName hact hcount hparse
    simp only [handleWebhook, Bool.not_true, Bool.false_eq_true, if_false, hact,
      ne_eq, not_true_eq_false, if_neg]
    rw [foldl_fossaLabelStep_single parseTitle signUp e e.labels noWebhookEffects
      projectName hcount hparse]
    simp [noWebhookEffects, fossaOnboardingComment]
  · intro hact
    simp [handleWebhook, hact]
  · intro hmem
    by_cases hact : e.action = "labeled"
    · simp only [handleWebhook, Bool.not_true, Bool.false_eq_true, if_false, hact,
        ne_eq, not_true_eq_false, if_neg]
      rw [foldl_fossaLabelStep_no_fossa parseTitle signUp e e.labels
        noWebhookEffects hmem]
    · simp [handleWebhook, hact]

/-- Concrete-input companion to C8: a labelled event with one `fossa`
label and a parsable title, under an oracle returning two actions and no
error. -/
theorem C8_handleWebhook_fossa_label_witness :
    handleWebhook (fun t => if t = "[FOSSA] Onboard Kubernetes" then some "Kubernetes" else none)
      (fun p => (["✅  " ++ p ++ " has 2 registered maintainers"], none))
      ⟨true, some (.issues ⟨"labeled", "[FOSSA] Onboard Kubernetes",
        ["help wanted", "fossa"], "cncf", "onboarding", 42⟩)⟩ =
      (200,
       { signUpCalls := ["Kubernetes"]
         comments :=
           [⟨"cncf", "onboarding", 42,
             onboardingReportHeader ++
             String.join ([("✅  Kubernetes has 2 registered maintainers" : String)].map
               (fun a => "- " ++ a ++ "\n")) ++
             postAcceptanceInstructions "Kubernetes"⟩] }) := by
  have h := (C8_handleWebhook_fossa_label
      (fun t => if t = "[FOSSA] Onboard Kubernetes" then some "Kubernetes" else none)
      (fun p => (["✅  " ++ p ++ " has 2 registered maintainers"], none))
      ⟨"labeled", "[FOSSA] Onboard Kubernetes", ["help wanted", "fossa"],
        "cncf", "onboarding", 42⟩).1 "Kubernetes" rfl (by decide) (by rfl)
  rw [h]
  rfl

end MaintainerD
